import Mathlib

/-!
Verification of the stroke synchronization core of a collaborative
freehand-drawing canvas (`src/components/Canvas.tsx`).

The component keeps React state
  `lines : Stroke[]`, `isDrawing : boolean`, `color : string`,
  `thickness : number`, and a mutable ref `lastLineRef : Stroke | null`.
We embed that state and every handler that touches it as pure Lean
functions.  JavaScript numbers appear here as `Int` (no claim depends on
coordinate arithmetic), rows carry a `created_at : Nat` timestamp, and
fallible steps return `Except` / `Option`.
-/

/-- A persisted 2D point `{x, y}` as stored in the `strokes` table. -/
structure Point where
  x : Int
  y : Int
deriving DecidableEq, Repr

/-- The client-side stroke: `interface Stroke { id; color; thickness;
points: number[] }` — `points` is the flat interleaved array
`[x0, y0, x1, y1, ...]` handed to the renderer. -/
structure Stroke where
  id : String
  color : String
  thickness : Int
  points : List Int
deriving DecidableEq, Repr

/-- A row of the `strokes` table: `interface SupabaseStroke { id; color;
thickness; points: Point[]; created_at }`.  `created_at` is modelled as a
`Nat` timestamp, used only for initial-load ordering. -/
structure SupabaseStroke where
  id : String
  color : String
  thickness : Int
  points : List Point
  created_at : Nat
deriving DecidableEq, Repr

/-- The component's state: the `lines` collection (the reconciliation
store), the `isDrawing` flag, the currently selected `color` and
`thickness`, and `lastLineRef.current` (the in-progress stroke builder). -/
structure CanvasState where
  lines : List Stroke
  isDrawing : Bool
  color : String
  thickness : Int
  lastLine : Option Stroke
deriving DecidableEq, Repr

/-- The initial state from the `useState` initializers:
`useState<Stroke[]>([])`, `useState(false)`, `useState("#ff0000")`,
`useState(4)`, `useRef<Stroke | null>(null)`. -/
def initialState : CanvasState :=
  { lines := [], isDrawing := false, color := "#ff0000", thickness := 4,
    lastLine := none }

/-- `s.points.flatMap(p => [p.x, p.y])` — the conversion from persisted
`{x,y}` records to the flat interleaved client form. -/
def flattenPoints (ps : List Point) : List Int :=
  ps.flatMap (fun p => [p.x, p.y])

/-- The row-to-stroke conversion used by both `fetchStrokes` and the
realtime subscription callback:
`{ id: s.id, color: s.color, thickness: s.thickness,
   points: s.points.flatMap(p => [p.x, p.y]) }`. -/
def formatStroke (s : SupabaseStroke) : Stroke :=
  { id := s.id, color := s.color, thickness := s.thickness,
    points := flattenPoints s.points }

/-- The pairing loop that runs before every upsert:
`for (let i = 0; i < line.points.length; i += 2)
   pointsArray.push({ x: line.points[i], y: line.points[i + 1] })`.
On an odd-length array the last iteration reads `line.points[i + 1]`
past the end of the array (JavaScript `undefined`); that out-of-bounds
read is modelled as `none`. -/
def pairUp : List Int → Option (List Point)
  | [] => some []
  | [_] => none
  | x :: y :: rest => (pairUp rest).map (fun ps => ⟨x, y⟩ :: ps)

/-- The duplicate check of the realtime subscription callback:
`setLines(prev => { if (prev.some(l => l.id === stroke.id)) return prev;
return [...prev, stroke] })`. -/
def mergeLines (lines : List Stroke) (stroke : Stroke) : List Stroke :=
  if lines.any (fun l => l.id == stroke.id) then lines
  else lines ++ [stroke]

/-- `fetchStrokes` applied to the rows delivered by
`select("*").order("created_at", { ascending: true })`: the rows are
mapped through `formatStroke` and `setLines(formatted)` replaces the
whole collection.  The database's ordering clause is modelled by sorting
the persisted rows by `created_at` ascending before the map. -/
def createdLE (a b : SupabaseStroke) : Prop :=
  a.created_at ≤ b.created_at

instance : DecidableRel createdLE := fun a b =>
  inferInstanceAs (Decidable (a.created_at ≤ b.created_at))

instance : IsTotal SupabaseStroke createdLE :=
  ⟨fun a b => Nat.le_total a.created_at b.created_at⟩

instance : IsTrans SupabaseStroke createdLE :=
  ⟨fun _ _ _ h h' => Nat.le_trans h h'⟩

/-- The ordered result set of `select("*").order("created_at",
{ ascending: true })` over the persisted rows. -/
def loadAll (rows : List SupabaseStroke) : List SupabaseStroke :=
  rows.insertionSort createdLE

/-- The body of `fetchStrokes` once the ordered rows arrive:
`setLines(data.map(formatStroke))` — the collection is replaced
wholesale. -/
def fetchStrokes (rows : List SupabaseStroke) (st : CanvasState) :
    CanvasState :=
  { st with lines := (loadAll rows).map formatStroke }

/-- `handlePointerDown`: build
`newLine = { id: uuidv4(), color, thickness, points: [pos.x, pos.y] }`,
set `lastLineRef.current = newLine`, `setLines(prev => [...prev,
newLine])`, `setIsDrawing(true)`.  `getPointerPosition` may return
`null` (modelled by `pos = none`), in which case the handler returns
early.  The fresh uuid is passed in as `newId`. -/
def handlePointerDown (st : CanvasState) (newId : String)
    (pos : Option Point) : CanvasState :=
  match pos with
  | none => st
  | some p =>
    let newLine : Stroke :=
      { id := newId, color := st.color, thickness := st.thickness,
        points := [p.x, p.y] }
    { st with lastLine := some newLine, lines := st.lines ++ [newLine],
              isDrawing := true }

/-- `handlePointerMove`: early return unless `isDrawing &&
lastLineRef.current`; early return if `getPointerPosition` gave `null`;
otherwise `lastLineRef.current.points =
lastLineRef.current.points.concat([point.x, point.y])` and
`setLines(prev => [...prev.slice(0, -1), lastLineRef.current!])` —
note the update replaces the LAST element of the collection, whatever
it is, not the entry with the in-progress stroke's id. -/
def handlePointerMove (st : CanvasState) (pos : Option Point) :
    CanvasState :=
  if st.isDrawing = false then st
  else
    match st.lastLine with
    | none => st
    | some line =>
      match pos with
      | none => st
      | some p =>
        let updated : Stroke :=
          { line with points := line.points ++ [p.x, p.y] }
        { st with lastLine := some updated,
                  lines := st.lines.dropLast ++ [updated] }

/-- The payload handed to `supabase.from("strokes").upsert([...])` on
pointer-up: the flat array is re-paired into `{x,y}` records by the
two-at-a-time loop (`points = none` models the loop having read past
the end of an odd-length array). -/
structure UpsertPayload where
  id : String
  color : String
  thickness : Int
  points : Option (List Point)
deriving DecidableEq, Repr

/-- `handlePointerUp`: `setIsDrawing(false)`; if `!lastLineRef.current`
return with no upsert; otherwise pair up the points, issue the upsert
for `lastLineRef.current`, then `lastLineRef.current = null`.  Returns
the new state together with the issued upsert, if any. -/
def handlePointerUp (st : CanvasState) :
    CanvasState × Option UpsertPayload :=
  match st.lastLine with
  | none => ({ st with isDrawing := false }, none)
  | some line =>
    ({ st with isDrawing := false, lastLine := none },
     some { id := line.id, color := line.color,
            thickness := line.thickness, points := pairUp line.points })

/-- `clearCanvas`'s local half: `setLines([])`. -/
def clearCanvas (st : CanvasState) : CanvasState :=
  { st with lines := [] }

/-- The sentinel id of `clearCanvas`'s delete predicate. -/
def sentinelId : String := "00000000-0000-0000-0000-000000000000"

/-- `clearCanvas`'s remote half:
`supabase.from("strokes").delete().neq("id", sentinel)` — every row
whose id differs from the sentinel is deleted, so only rows whose id
EQUALS the sentinel survive. -/
def clearAllRemote (rows : List SupabaseStroke) : List SupabaseStroke :=
  rows.filter (fun r => r.id == sentinelId)

/-- The shape shared by every id `uuidv4()` can produce: 36 characters
with the version nibble (character index 14) equal to '4'. -/
def isUuidV4 (s : String) : Bool :=
  s.length == 36 && s.toList.getD 14 ' ' == '4'

/-- A raw feed/load row as delivered by the wire before any field
access: the code performs `payload.new as SupabaseStroke` with no
validation.  The only field whose ABSENCE changes control flow is
`points` — the callback's `s.points.flatMap(...)` throws a `TypeError`
when `points` is missing — so that field is modelled as optional; the
remaining fields are merely copied, never accessed. -/
structure RawPayload where
  id : String
  color : String
  thickness : Int
  points : Option (List Point)
deriving DecidableEq, Repr

/-- The realtime subscription callback on a raw payload: no validation
is performed; `s.points.flatMap(p => [p.x, p.y])` throws (modelled as
`Except.error`) when `points` is missing, and the throw happens BEFORE
`setLines`, so the collection is untouched; otherwise the decoded
stroke goes through the duplicate-checking merge. -/
def onInsertRaw (st : CanvasState) (payload : RawPayload) :
    Except String CanvasState :=
  match payload.points with
  | none => Except.error "TypeError: undefined has no flatMap"
  | some pts =>
    let stroke : Stroke :=
      { id := payload.id, color := payload.color,
        thickness := payload.thickness, points := flattenPoints pts }
    Except.ok { st with lines := mergeLines st.lines stroke }

/-- Outcome of the single network call on pointer-up. -/
inductive PushResult where
  | ok
  | transportError
deriving DecidableEq, Repr

/-- `handlePointerUp` with the transport outcome of its one `await
supabase.from("strokes").upsert([...])` made explicit.  The code issues
exactly one upsert, inspects neither `data` nor `error` of the
response, shows no warning, and proceeds to `lastLineRef.current =
null` regardless of the outcome.  Returns the new state, the list of
upsert attempts issued, and whether a user-visible warning was
surfaced. -/
def handlePointerUpWithOutcome (st : CanvasState) (res : PushResult) :
    CanvasState × List UpsertPayload × Bool :=
  match st.lastLine with
  | none => ({ st with isDrawing := false }, [], false)
  | some line =>
    let payload : UpsertPayload :=
      { id := line.id, color := line.color, thickness := line.thickness,
        points := pairUp line.points }
    match res with
    | .ok => ({ st with isDrawing := false, lastLine := none },
              [payload], false)
    | .transportError => ({ st with isDrawing := false, lastLine := none },
              [payload], false)

/-- One event of the single-threaded event loop: pointer handlers,
a realtime insert notification, the initial load, and the clear
command. -/
inductive Ev where
  | down (newId : String) (pos : Option Point)
  | move (pos : Option Point)
  | up
  | insert (payload : RawPayload)
  | load (rows : List SupabaseStroke)
  | clear
deriving Repr

/-- Dispatch of one event to the corresponding handler.  A malformed
insert throws before `setLines`, leaving the state unchanged. -/
def step (st : CanvasState) : Ev → CanvasState
  | .down newId pos => handlePointerDown st newId pos
  | .move pos => handlePointerMove st pos
  | .up => (handlePointerUp st).1
  | .insert payload =>
    match onInsertRaw st payload with
    | .ok st' => st'
    | .error _ => st
  | .load rows => fetchStrokes rows st
  | .clear => clearCanvas st

/-- A run of the event loop from the initial state. -/
def run (evs : List Ev) : CanvasState :=
  evs.foldl step initialState

/-! ## Shared lemmas -/

theorem flattenPoints_cons (p : Point) (ps : List Point) :
    flattenPoints (p :: ps) = p.x :: p.y :: flattenPoints ps := rfl

theorem flattenPoints_length (ps : List Point) :
    (flattenPoints ps).length = 2 * ps.length := by
  induction ps with
  | nil => rfl
  | cons p rest ih => simp [flattenPoints_cons, ih]; omega

theorem flattenPoints_length_even (ps : List Point) :
    (flattenPoints ps).length % 2 = 0 := by
  rw [flattenPoints_length]; omega

theorem pairUp_flattenPoints (ps : List Point) :
    pairUp (flattenPoints ps) = some ps := by
  induction ps with
  | nil => rfl
  | cons p rest ih => rw [flattenPoints_cons]; simp [pairUp, ih]

theorem flattenPoints_pairUp :
    ∀ (flat : List Int) (ps : List Point),
      pairUp flat = some ps → flattenPoints ps = flat
  | [], ps, h => by
    simp [pairUp] at h; subst h; rfl
  | [x], ps, h => by
    simp [pairUp] at h
  | x :: y :: rest, ps, h => by
    simp only [pairUp, Option.map_eq_some'] at h
    obtain ⟨ps', hrest, hps⟩ := h
    subst hps
    rw [flattenPoints_cons, flattenPoints_pairUp rest ps' hrest]

theorem pairUp_isSome_of_even :
    ∀ flat : List Int, flat.length % 2 = 0 → (pairUp flat).isSome = true
  | [], _ => rfl
  | [_], h => by simp at h
  | _ :: _ :: rest, h => by
    have : rest.length % 2 = 0 := by simp at h; omega
    simp [pairUp, Option.isSome_map]
    exact pairUp_isSome_of_even rest this

theorem mergeLines_of_present {lines : List Stroke} {s : Stroke}
    (h : lines.any (fun l => l.id == s.id) = true) :
    mergeLines lines s = lines := by
  simp [mergeLines, h]

theorem mem_mergeLines {lines : List Stroke} {s l : Stroke}
    (h : l ∈ mergeLines lines s) : l ∈ lines ∨ l = s := by
  unfold mergeLines at h
  split at h
  · exact Or.inl h
  · simpa using h

theorem mergeLines_self_present (lines : List Stroke) (s : Stroke) :
    (mergeLines lines s).any (fun l => l.id == s.id) = true := by
  unfold mergeLines
  split
  · assumption
  · simp

theorem mem_foldl_mergeLines :
    ∀ (notified acc : List Stroke) (l : Stroke),
      l ∈ notified.foldl mergeLines acc → l ∈ acc ∨ l ∈ notified
  | [], _, _, h => Or.inl h
  | s :: rest, acc, l, h => by
    rcases mem_foldl_mergeLines rest (mergeLines acc s) l h with h' | h'
    · rcases mem_mergeLines h' with h'' | h''
      · exact Or.inl h''
      · exact Or.inr (by simp [h''])
    · exact Or.inr (List.mem_cons_of_mem _ h')

/-- Every stroke the session holds — in the collection and in the
builder — has an even-length flat points array. -/
def evenState (st : CanvasState) : Prop :=
  (∀ l ∈ st.lines, l.points.length % 2 = 0) ∧
  (∀ l : Stroke, st.lastLine = some l → l.points.length % 2 = 0)

theorem evenState_initial : evenState initialState := by
  constructor <;> simp [initialState]

theorem evenState_step {st : CanvasState} (h : evenState st) (e : Ev) :
    evenState (step st e) := by
  obtain ⟨hlines, hlast⟩ := h
  cases e with
  | down newId pos =>
    cases pos with
    | none => exact ⟨hlines, hlast⟩
    | some p =>
      refine ⟨?_, ?_⟩
      · intro l hl
        simp [step, handlePointerDown] at hl
        rcases hl with hl | hl
        · exact hlines l hl
        · subst hl; simp
      · intro l hl
        simp [step, handlePointerDown] at hl
        subst hl; simp
  | move pos =>
    by_cases hd : st.isDrawing = false
    · simpa [step, handlePointerMove, hd] using ⟨hlines, hlast⟩
    · rcases hl : st.lastLine with _ | line
      · simpa [step, handlePointerMove, hd, hl] using ⟨hlines, hlast⟩
      · cases pos with
        | none => simpa [step, handlePointerMove, hd, hl] using ⟨hlines, hlast⟩
        | some p =>
          have hev : line.points.length % 2 = 0 := hlast line hl
          refine ⟨?_, ?_⟩
          · intro l hmem
            simp [step, handlePointerMove, hd, hl] at hmem
            rcases hmem with hmem | hmem
            · exact hlines l (List.mem_of_mem_dropLast hmem)
            · subst hmem; simp; omega
          · intro l hsome
            simp [step, handlePointerMove, hd, hl] at hsome
            subst hsome; simp; omega
  | up =>
    rcases hl : st.lastLine with _ | line
    · refine ⟨fun l hm => hlines l (by simpa [step, handlePointerUp, hl] using hm), ?_⟩
      intro l hs
      simp [step, handlePointerUp, hl] at hs
    · refine ⟨fun l hm => hlines l (by simpa [step, handlePointerUp, hl] using hm), ?_⟩
      intro l hs
      simp [step, handlePointerUp, hl] at hs
  | insert payload =>
    rcases hp : payload.points with _ | pts
    · simpa [step, onInsertRaw, hp] using ⟨hlines, hlast⟩
    · refine ⟨?_, ?_⟩
      · intro l hm
        simp [step, onInsertRaw, hp] at hm
        rcases mem_mergeLines hm with hm' | hm'
        · exact hlines l hm'
        · subst hm'; exact flattenPoints_length_even pts
      · intro l hs
        simp [step, onInsertRaw, hp] at hs
        exact hlast l hs
  | load rows =>
    refine ⟨?_, ?_⟩
    · intro l hm
      simp [step, fetchStrokes] at hm
      obtain ⟨r, _, hr⟩ := hm
      subst hr
      exact flattenPoints_length_even r.points
    · intro l hs
      simp [step, fetchStrokes] at hs
      exact hlast l hs
  | clear =>
    refine ⟨?_, ?_⟩
    · intro l hm
      simp [step, clearCanvas] at hm
    · intro l hs
      simp [step, clearCanvas] at hs
      exact hlast l hs

theorem evenState_foldl :
    ∀ (evs : List Ev) (st : CanvasState),
      evenState st → evenState (evs.foldl step st)
  | [], _, h => h
  | e :: rest, st, h => evenState_foldl rest (step st e) (evenState_step h e)

theorem evenState_run (evs : List Ev) : evenState (run evs) :=
  evenState_foldl evs initialState evenState_initial

/-! ## Claims -/

def c1_idA : String := "9f1d2c34-5e6f-4a7b-8c9d-0e1f2a3b4c5d"

def c1_idB : String := "2b7e9a10-33cd-4f58-9a21-7c54de0a9b3f"

def c1_events : List Ev :=
  [ .down c1_idA (some ⟨1, 2⟩),
    .insert { id := c1_idB, color := "#00ff00", thickness := 2,
              points := some [⟨5, 6⟩] },
    .move (some ⟨3, 4⟩) ]

/-- Claim C1: "at most one stroke entry exists per id, preserved by every
operation" — REFUTED by the code.  From the initial state, a pointer-down
(new stroke with id `c1_idA`), then a remote insert notification for a
different id `c1_idB`, then one pointer-move, leave the collection holding
TWO entries with id `c1_idA` (and the remote stroke is gone):
`handlePointerMove` replaces the last element of the collection
(`prev.slice(0, -1)` + append) instead of the entry with the in-progress
stroke's id, so a `mergeRemote` landing mid-gesture breaks the
uniqueness invariant the merge's own duplicate check
(`// Avoid duplicates`) is there to maintain. -/
theorem claim_C1_duplicate_id_reachable :
    ((run c1_events).lines.map Stroke.id) = [c1_idA, c1_idA] ∧
    (run c1_events).lines.length = 2 := by
  constructor <;> decide

/-- Claim C2: if a client authored a stroke locally (exactly one entry
with its id is in the collection, the locally-authored one `L`) and a feed
insert for the same id arrives, then after the merge the snapshot is
unchanged: it contains exactly one entry for that id and it is `L` — the
incoming remote record is ignored. -/
theorem claim_C2_local_author_wins (lines : List Stroke) (L : Stroke)
    (s : SupabaseStroke) (hid : s.id = L.id)
    (h1 : lines.filter (fun l => l.id == L.id) = [L]) :
    mergeLines lines (formatStroke s) = lines ∧
    (mergeLines lines (formatStroke s)).filter (fun l => l.id == L.id)
      = [L] := by
  have hL : L ∈ lines.filter (fun l => l.id == L.id) := by
    rw [h1]; exact List.mem_singleton.mpr rfl
  have hmem : L ∈ lines := List.mem_of_mem_filter hL
  have hany : lines.any (fun l => l.id == (formatStroke s).id) = true := by
    refine List.any_eq_true.mpr ⟨L, hmem, ?_⟩
    simp [formatStroke, hid]
  refine ⟨mergeLines_of_present hany, ?_⟩
  rw [mergeLines_of_present hany]
  exact h1

def c2L : Stroke :=
  { id := "3c9d8e7f-1a2b-4c3d-8e9f-5a6b7c8d9e0f", color := "#ff0000",
    thickness := 4, points := [1, 2, 3, 4] }

def c2s : SupabaseStroke :=
  { id := "3c9d8e7f-1a2b-4c3d-8e9f-5a6b7c8d9e0f", color := "#0000ff",
    thickness := 9, points := [⟨7, 8⟩], created_at := 5 }

/-- Witness for C2 at a concrete locally-authored stroke and a racing
remote record with the same id but different content. -/
theorem claim_C2_witness :
    mergeLines [c2L] (formatStroke c2s) = [c2L] ∧
    (mergeLines [c2L] (formatStroke c2s)).filter
      (fun l => l.id == c2L.id) = [c2L] :=
  claim_C2_local_author_wins [c2L] c2L c2s rfl (by decide)

/-- Claim C3: merging a stroke whose id is already present leaves the
collection unchanged, and merging the same stroke twice in a row makes
the second application a no-op (idempotence of `mergeRemote` on
already-present ids). -/
theorem claim_C3_merge_idempotent (lines : List Stroke) (s : Stroke) :
    (lines.any (fun l => l.id == s.id) = true →
       mergeLines lines s = lines) ∧
    mergeLines (mergeLines lines s) s = mergeLines lines s :=
  ⟨mergeLines_of_present,
   mergeLines_of_present (mergeLines_self_present lines s)⟩

def c3L : Stroke :=
  { id := "7a1b2c3d-4e5f-4a6b-8c7d-9e0f1a2b3c4d", color := "#00ff00",
    thickness := 2, points := [0, 0, 1, 1] }

/-- Witness for C3 at a concrete one-element store holding `c3L`'s id. -/
theorem claim_C3_witness :
    mergeLines [c3L] c3L = [c3L] ∧
    mergeLines (mergeLines [] c3L) c3L = mergeLines [] c3L :=
  ⟨(claim_C3_merge_idempotent [c3L] c3L).1 (by decide),
   (claim_C3_merge_idempotent [] c3L).2⟩

/-- The builder's flat coordinate count: the length of
`lastLineRef.current.points` (0 when no stroke is in progress).  One
appended point is two flat coordinates. -/
def builderCount (st : CanvasState) : Nat :=
  match st.lastLine with
  | none => 0
  | some l => l.points.length

/-- Claim C4: with drawing active and an in-progress stroke present, each
pointer-move appends exactly one point — the builder's flat count grows
by exactly 2 (one `(x, y)` pair) — in particular it never shrinks; with
no in-progress stroke or drawing inactive, the handler is a no-op that
changes neither the builder nor the store. -/
theorem claim_C4_appendPoint_growth :
    (∀ (st : CanvasState) (line : Stroke) (p : Point),
        st.isDrawing = true → st.lastLine = some line →
        (handlePointerMove st (some p)).lastLine
          = some { line with points := line.points ++ [p.x, p.y] } ∧
        builderCount (handlePointerMove st (some p))
          = builderCount st + 2) ∧
    (∀ (st : CanvasState) (pos : Option Point),
        st.isDrawing = false ∨ st.lastLine = none →
        handlePointerMove st pos = st) ∧
    (∀ (st : CanvasState) (pos : Option Point),
        builderCount st ≤ builderCount (handlePointerMove st pos)) := by
  refine ⟨?_, ?_, ?_⟩
  · intro st line p hd hl
    constructor
    · simp [handlePointerMove, hd, hl]
    · simp [handlePointerMove, builderCount, hd, hl]
  · intro st pos h
    rcases h with hd | hn
    · simp [handlePointerMove, hd]
    · by_cases hd : st.isDrawing = false
      · simp [handlePointerMove, hd]
      · cases pos <;> simp [handlePointerMove, hd, hn]
  · intro st pos
    by_cases hd : st.isDrawing = false
    · simp [handlePointerMove, hd]
    · rcases hl : st.lastLine with _ | line <;> rcases pos with _ | p <;>
        simp [handlePointerMove, builderCount, hd, hl]

def c4line : Stroke :=
  { id := "5e6f7a8b-9c0d-4e1f-8a2b-3c4d5e6f7a8b", color := "#ff0000",
    thickness := 4, points := [10, 20] }

def c4st : CanvasState :=
  { lines := [c4line], isDrawing := true, color := "#ff0000",
    thickness := 4, lastLine := some c4line }

/-- Witness for C4 at a concrete mid-gesture state: one move grows the
builder by one pair, and the handler is a no-op on the idle initial
state. -/
theorem claim_C4_witness :
    (handlePointerMove c4st (some ⟨3, 4⟩)).lastLine
      = some { c4line with points := c4line.points ++ [3, 4] } ∧
    builderCount (handlePointerMove c4st (some ⟨3, 4⟩))
      = builderCount c4st + 2 ∧
    handlePointerMove initialState (some ⟨3, 4⟩) = initialState ∧
    builderCount c4st
      ≤ builderCount (handlePointerMove c4st (some ⟨3, 4⟩)) :=
  ⟨(claim_C4_appendPoint_growth.1 c4st c4line ⟨3, 4⟩ rfl rfl).1,
   (claim_C4_appendPoint_growth.1 c4st c4line ⟨3, 4⟩ rfl rfl).2,
   claim_C4_appendPoint_growth.2.1 initialState (some ⟨3, 4⟩) (Or.inl rfl),
   claim_C4_appendPoint_growth.2.2 c4st (some ⟨3, 4⟩)⟩

/-- Claim C5: seeding a fresh store from the initial load yields a
snapshot that is exactly the persisted rows ordered by `created_at`
ascending, converted by `formatStroke`; the conversion preserves id,
color and thickness, the resulting collection is a permutation of the
converted persisted set, the load order is sorted by creation time, and
re-pairing the flat `[x0,y0,x1,y1,...]` array recovers each row's exact
`{x,y}` point sequence. -/
theorem claim_C5_load_roundTrip (rows : List SupabaseStroke) :
    (fetchStrokes rows initialState).lines
      = (loadAll rows).map formatStroke ∧
    List.Perm (fetchStrokes rows initialState).lines
      (rows.map formatStroke) ∧
    List.Sorted createdLE (loadAll rows) ∧
    (∀ r : SupabaseStroke,
      (formatStroke r).id = r.id ∧ (formatStroke r).color = r.color ∧
      (formatStroke r).thickness = r.thickness ∧
      pairUp (formatStroke r).points = some r.points) := by
  refine ⟨rfl, ?_, ?_, ?_⟩
  · exact (List.perm_insertionSort createdLE rows).map formatStroke
  · exact List.sorted_insertionSort createdLE rows
  · intro r
    exact ⟨rfl, rfl, rfl, pairUp_flattenPoints r.points⟩

/-- Claim C6: after `clear()` the snapshot is empty regardless of the
prior contents; the paired remote delete removes every persisted row
except ones carrying the sentinel id, and no `uuidv4`-shaped client id
equals the sentinel (its version character is '4', the sentinel's is
'0'); a fold of `mergeRemote` over the cleared store re-populates only
with strokes actually re-notified. -/
theorem claim_C6_clear_total :
    (∀ st : CanvasState, (clearCanvas st).lines = []) ∧
    isUuidV4 sentinelId = false ∧
    (∀ rows : List SupabaseStroke,
      (∀ r ∈ rows, isUuidV4 r.id = true) → clearAllRemote rows = []) ∧
    (∀ (notified : List Stroke) (l : Stroke),
      l ∈ notified.foldl mergeLines (clearCanvas initialState).lines →
      l ∈ notified) := by
  refine ⟨fun _ => rfl, rfl, ?_, ?_⟩
  · intro rows hv4
    rw [clearAllRemote, List.filter_eq_nil_iff]
    intro r hr hbeq
    have hid : r.id = sentinelId := by simpa using hbeq
    have := hv4 r hr
    rw [hid] at this
    simp [isUuidV4, sentinelId] at this
  · intro notified l hmem
    rcases mem_foldl_mergeLines notified _ l hmem with h | h
    · simp [clearCanvas] at h
    · exact h

def c6row : SupabaseStroke :=
  { id := "4f5a6b7c-8d9e-4f0a-9b1c-2d3e4f5a6b7c", color := "#ffffff",
    thickness := 1, points := [⟨0, 0⟩], created_at := 7 }

def c6L : Stroke :=
  { id := "8b9c0d1e-2f3a-4b4c-8d5e-6f7a8b9c0d1e", color := "#000000",
    thickness := 3, points := [1, 1] }

/-- Witness for C6: a concrete v4-id row set is fully deleted, and a
concrete re-notified stroke is all the cleared store re-populates with. -/
theorem claim_C6_witness :
    clearAllRemote [c6row] = [] ∧ c6L ∈ [c6L] :=
  ⟨claim_C6_clear_total.2.2.1 [c6row] (by decide),
   claim_C6_clear_total.2.2.2 [c6L] c6L (by decide)⟩

/-- Claim C7: pointer-up with no in-progress stroke issues no
finish-push and leaves the store unchanged (only the drawing flag is
reset); with an in-progress stroke it issues exactly the stroke's upsert
and clears the builder; hence a double release is safe — the second
release pushes nothing and leaves the collection as it was. -/
theorem claim_C7_finish_safe :
    (∀ st : CanvasState, st.lastLine = none →
       handlePointerUp st = ({ st with isDrawing := false }, none)) ∧
    (∀ (st : CanvasState) (line : Stroke), st.lastLine = some line →
       (handlePointerUp st).1.lastLine = none ∧
       (handlePointerUp st).1.lines = st.lines ∧
       (handlePointerUp st).2
         = some { id := line.id, color := line.color,
                  thickness := line.thickness,
                  points := pairUp line.points }) ∧
    (∀ st : CanvasState,
       (handlePointerUp (handlePointerUp st).1).2 = none ∧
       (handlePointerUp (handlePointerUp st).1).1.lines
         = (handlePointerUp st).1.lines) := by
  refine ⟨?_, ?_, ?_⟩
  · intro st h
    simp [handlePointerUp, h]
  · intro st line h
    refine ⟨?_, ?_, ?_⟩ <;> simp [handlePointerUp, h]
  · intro st
    rcases h : st.lastLine with _ | line <;>
      constructor <;> simp [handlePointerUp, h]

def c7line : Stroke :=
  { id := "1a2b3c4d-5e6f-4a7b-8c9d-0e1f2a3b4c5e", color := "#ff0000",
    thickness := 4, points := [2, 3, 4, 5] }

def c7st : CanvasState :=
  { lines := [c7line], isDrawing := true, color := "#ff0000",
    thickness := 4, lastLine := some c7line }

/-- Witness for C7: releasing on the idle initial state pushes nothing;
releasing the concrete mid-gesture state pushes exactly its stroke and
clears the builder. -/
theorem claim_C7_witness :
    handlePointerUp initialState
      = ({ initialState with isDrawing := false }, none) ∧
    (handlePointerUp c7st).1.lastLine = none ∧
    (handlePointerUp c7st).1.lines = c7st.lines ∧
    (handlePointerUp c7st).2
      = some { id := c7line.id, color := c7line.color,
               thickness := c7line.thickness,
               points := pairUp c7line.points } ∧
    (handlePointerUp (handlePointerUp c7st).1).2 = none :=
  ⟨claim_C7_finish_safe.1 initialState rfl,
   (claim_C7_finish_safe.2.1 c7st c7line rfl).1,
   (claim_C7_finish_safe.2.1 c7st c7line rfl).2.1,
   (claim_C7_finish_safe.2.1 c7st c7line rfl).2.2,
   (claim_C7_finish_safe.2.2 c7st).1⟩

def c8payload : RawPayload :=
  { id := "6d3e2f10-8a4b-4c5d-9e6f-102938475661", color := "#123456",
    thickness := 3, points := none }

/-- A raw row of the initial-load result set before any field access:
`fetchStrokes` runs `data.map(s => ({ ..., points: s.points.flatMap(...)
}))` with no validation, so a row missing `points` throws a `TypeError`
inside the map.  As with `RawPayload`, only the `points` field is ever
accessed — the others are merely copied — so only its absence changes
control flow. -/
structure RawRow where
  id : String
  color : String
  thickness : Int
  points : Option (List Point)
  created_at : Nat
deriving DecidableEq, Repr

/-- The body of `fetchStrokes`' map on one raw loaded row: the unguarded
`s.points.flatMap(p => [p.x, p.y])` throws when `points` is missing. -/
def formatRawRow (s : RawRow) : Except String Stroke :=
  match s.points with
  | none => Except.error "TypeError: undefined has no flatMap"
  | some pts =>
    Except.ok { id := s.id, color := s.color, thickness := s.thickness,
                points := flattenPoints pts }

/-- `data.map(s => ({...}))` over the raw loaded rows: the callback runs
left to right and the first throw aborts the whole map. -/
def mapFormatRows : List RawRow → Except String (List Stroke)
  | [] => Except.ok []
  | s :: rest =>
    match formatRawRow s with
    | Except.error e => Except.error e
    | Except.ok stroke => (mapFormatRows rest).map (fun ls => stroke :: ls)

/-- `fetchStrokes` on a raw result set (the rows as delivered by the
ordered select): map the rows, then `setLines(formatted)`; a throw
inside the map aborts before `setLines` runs. -/
def fetchStrokesRaw (rows : List RawRow) (st : CanvasState) :
    Except String CanvasState :=
  match mapFormatRows rows with
  | Except.error e => Except.error e
  | Except.ok formatted => Except.ok { st with lines := formatted }

/-- The session state once the load effect has run on raw rows: a throw
inside the map leaves the React state untouched. -/
def loadStep (st : CanvasState) (rows : List RawRow) : CanvasState :=
  match fetchStrokesRaw rows st with
  | Except.ok st' => st'
  | Except.error _ => st

/-- A well-formed row viewed as a raw row. -/
def toRawRow (s : SupabaseStroke) : RawRow :=
  { id := s.id, color := s.color, thickness := s.thickness,
    points := some s.points, created_at := s.created_at }

theorem mapFormatRows_wellFormed (rows : List SupabaseStroke) :
    mapFormatRows (rows.map toRawRow)
      = Except.ok (rows.map formatStroke) := by
  induction rows with
  | nil => rfl
  | cons s rest ih =>
    simp [mapFormatRows, formatRawRow, toRawRow, formatStroke, ih,
      Except.map]

theorem mapFormatRows_error_of_malformed :
    ∀ rows : List RawRow, (∃ r ∈ rows, r.points = none) →
      mapFormatRows rows
        = Except.error "TypeError: undefined has no flatMap"
  | [], h => by simp at h
  | s :: rest, h => by
    rcases hp : s.points with _ | pts
    · simp [mapFormatRows, formatRawRow, hp]
    · rcases h with ⟨r, hr, hrn⟩
      rcases List.mem_cons.mp hr with rfl | hr'
      · rw [hp] at hrn; cases hrn
      · have herr := mapFormatRows_error_of_malformed rest ⟨r, hr', hrn⟩
        simp [mapFormatRows, formatRawRow, hp, herr, Except.map]

def c8row : RawRow :=
  { id := "7c8d9e0f-1a2b-4c3d-8e4f-5a6b7c8d9e0f", color := "#abcdef",
    thickness := 2, points := none, created_at := 3 }

/-- Claim C8, counterexample: the claim says a feed event or loaded row
missing required fields is dropped with a logged warning and the session
does not crash.  On this concrete feed payload and this concrete loaded
row, each missing the `points` field, the unguarded
`s.points.flatMap(...)` instead throws a `TypeError` on both paths:
nothing is dropped and no warning is logged anywhere in either
handler. -/
theorem claim_C8_counterexample :
    onInsertRaw initialState c8payload
      = Except.error "TypeError: undefined has no flatMap" ∧
    fetchStrokesRaw [c8row] initialState
      = Except.error "TypeError: undefined has no flatMap" :=
  ⟨rfl, rfl⟩

/-- Claim C8 as amended: malformed feed events and malformed loaded rows
are neither validated nor dropped with a logged warning — a feed payload
missing `points` makes the subscription callback throw a `TypeError`,
and a load result set containing a row missing `points` makes
`fetchStrokes`' row mapping throw the same way — but each throw happens
before the respective `setLines` update, so the lines collection is
left unchanged by a malformed event and by a malformed load. -/
theorem claim_C8_malformed_throws :
    (∀ (st : CanvasState) (payload : RawPayload), payload.points = none →
        onInsertRaw st payload
          = Except.error "TypeError: undefined has no flatMap" ∧
        step st (.insert payload) = st) ∧
    (∀ (st : CanvasState) (rows : List RawRow),
        (∃ r ∈ rows, r.points = none) →
        fetchStrokesRaw rows st
          = Except.error "TypeError: undefined has no flatMap" ∧
        loadStep st rows = st) := by
  constructor
  · intro st payload h
    constructor <;> simp [onInsertRaw, step, h]
  · intro st rows h
    have herr := mapFormatRows_error_of_malformed rows h
    constructor
    · simp [fetchStrokesRaw, herr]
    · simp [loadStep, fetchStrokesRaw, herr]

/-- Witness for the amended C8 at the concrete malformed feed payload
and the concrete one-row malformed load. -/
theorem claim_C8_witness :
    (onInsertRaw initialState c8payload
        = Except.error "TypeError: undefined has no flatMap" ∧
      step initialState (.insert c8payload) = initialState) ∧
    (fetchStrokesRaw [c8row] initialState
        = Except.error "TypeError: undefined has no flatMap" ∧
      loadStep initialState [c8row] = initialState) :=
  ⟨claim_C8_malformed_throws.1 initialState c8payload rfl,
   claim_C8_malformed_throws.2 initialState [c8row] ⟨c8row, by simp, rfl⟩⟩

def c9line : Stroke :=
  { id := "0f1e2d3c-4b5a-4697-8877-665544332211", color := "#ff0000",
    thickness := 4, points := [1, 2, 3, 4] }

def c9st : CanvasState :=
  { lines := [c9line], isDrawing := true, color := "#ff0000",
    thickness := 4, lastLine := some c9line }

/-- Claim C9, counterexample: the claim says a finish-push that fails
with a `TransportError` is retried at least once with backoff before a
user-visible warning is surfaced.  On this concrete mid-gesture state
with a failing transport, the handler issues exactly ONE upsert attempt
(no retry) and surfaces no warning: the response of the single
`await supabase...upsert(...)` is never inspected. -/
theorem claim_C9_counterexample :
    (handlePointerUpWithOutcome c9st .transportError).2.1.length = 1 ∧
    (handlePointerUpWithOutcome c9st .transportError).2.2 = false :=
  ⟨rfl, rfl⟩

/-- Claim C9 as amended: when the finish-push fails with a
`TransportError`, the code performs no retry and surfaces no warning —
exactly one upsert attempt is issued — and the stroke remains visible
locally: the lines collection is untouched by the release handler and
the failure. -/
theorem claim_C9_no_retry (st : CanvasState) (line : Stroke)
    (h : st.lastLine = some line) :
    (handlePointerUpWithOutcome st .transportError).2.1
      = [{ id := line.id, color := line.color,
           thickness := line.thickness,
           points := pairUp line.points }] ∧
    (handlePointerUpWithOutcome st .transportError).2.2 = false ∧
    (handlePointerUpWithOutcome st .transportError).1.lines
      = st.lines := by
  refine ⟨?_, ?_, ?_⟩ <;> simp [handlePointerUpWithOutcome, h]

/-- Witness for the amended C9 at the concrete mid-gesture state. -/
theorem claim_C9_witness :
    (handlePointerUpWithOutcome c9st .transportError).2.1
      = [{ id := c9line.id, color := c9line.color,
           thickness := c9line.thickness,
           points := pairUp c9line.points }] ∧
    (handlePointerUpWithOutcome c9st .transportError).2.2 = false ∧
    (handlePointerUpWithOutcome c9st .transportError).1.lines
      = c9st.lines :=
  claim_C9_no_retry c9st c9line rfl

/-- Claim C10: every stroke the session can ever hold — in the
collection or in the builder, over any event sequence from the initial
state — has an even-length flat points array; the pairing loop run
before every upsert never reads past the end of such an array (`pairUp`
returns `some`), and pairing is the exact two-sided inverse of the
`{x,y}`-record flattening. -/
theorem claim_C10_even_flat_points :
    (∀ ps : List Point, pairUp (flattenPoints ps) = some ps) ∧
    (∀ (flat : List Int) (ps : List Point),
        pairUp flat = some ps → flattenPoints ps = flat) ∧
    (∀ flat : List Int, flat.length % 2 = 0 →
        (pairUp flat).isSome = true) ∧
    (∀ (evs : List Ev) (l : Stroke), l ∈ (run evs).lines →
        l.points.length % 2 = 0 ∧ (pairUp l.points).isSome = true) ∧
    (∀ (evs : List Ev) (l : Stroke), (run evs).lastLine = some l →
        l.points.length % 2 = 0 ∧ (pairUp l.points).isSome = true) := by
  refine ⟨pairUp_flattenPoints, flattenPoints_pairUp,
    pairUp_isSome_of_even, ?_, ?_⟩
  · intro evs l hmem
    have h := (evenState_run evs).1 l hmem
    exact ⟨h, pairUp_isSome_of_even _ h⟩
  · intro evs l hlast
    have h := (evenState_run evs).2 l hlast
    exact ⟨h, pairUp_isSome_of_even _ h⟩

def c10ev : Ev := .down "e1d2c3b4-a596-4877-b958-0a1b2c3d4e5f" (some ⟨1, 2⟩)

def c10l : Stroke :=
  { id := "e1d2c3b4-a596-4877-b958-0a1b2c3d4e5f", color := "#ff0000",
    thickness := 4, points := [1, 2] }

/-- Witness for C10: the concrete round trip on a one-point record list,
the concrete inverse direction, evenness applied at a concrete flat
array, and the invariant applied to the one stroke present after a
concrete pointer-down run. -/
theorem claim_C10_witness :
    pairUp (flattenPoints [⟨1, 2⟩]) = some [⟨1, 2⟩] ∧
    flattenPoints [(⟨1, 2⟩ : Point)] = [1, 2] ∧
    (pairUp [1, 2, 3, 4]).isSome = true ∧
    (c10l.points.length % 2 = 0 ∧ (pairUp c10l.points).isSome = true) ∧
    (c10l.points.length % 2 = 0 ∧ (pairUp c10l.points).isSome = true) :=
  ⟨claim_C10_even_flat_points.1 [⟨1, 2⟩],
   claim_C10_even_flat_points.2.1 [1, 2] [⟨1, 2⟩] (by decide),
   claim_C10_even_flat_points.2.2.1 [1, 2, 3, 4] (by decide),
   claim_C10_even_flat_points.2.2.2.1 [c10ev] c10l (by decide),
   claim_C10_even_flat_points.2.2.2.2 [c10ev] c10l (by decide)⟩
